import Mathlib

/-!
Shallow embedding of `src/app.py` (Flask video-assembly service) for
verification of its natural-language specification.

The service exposes two request handlers, `assemble_video` (POST /assemble)
and `assemble_upload` (POST /assemble-upload).  Both create a per-job
directory under a shared work root, acquire an audio file, probe its
duration with ffprobe, download the listed video clips, normalize each
clip with ffmpeg to `audio_duration / len(video_paths)` seconds, write a
concat list, run a final ffmpeg concat+mux pass, and return either the
final file or a JSON error; a `finally` block removes the job directory.

Modelling choices:
  * Durations are rationals (ℚ): Python floats are used only for one
    division, which we model exactly.
  * Every external effect (request fields, ffprobe stdout, each
    `requests.get`, each ffmpeg invocation) is an oracle recorded in `Env`.
    A clip's fetch oracle is a function `Nat → FetchOutcome` giving the
    outcome the n-th attempt at that URL would have; the source performs
    exactly one `requests.get` per URL, so it consults index 0 only.
  * An arbitrary runtime fault ("any raised exception") is modelled by the
    oracle `exnAt`, which makes the handler body raise at the given stage
    boundary; the surrounding `try/except/finally` of the source is
    modelled by `assembleHandler` / `assembleUploadHandler`.
  * Files are pairs (job directory, file name), since every path the
    handlers create is produced by `os.path.join(job_dir, name)`.
    `shutil.rmtree(job_dir)` removes every path whose directory component
    is the job directory.
  * The two distinct empty-URL-list 400 responses of `/assemble-upload`
    (empty `video_urls` string at line 182, empty parsed list at line 194)
    are merged into one check on the parsed clip list, as no claim
    distinguishes them.
-/

namespace VideoAssembler

/-- Outcome of one would-be HTTP GET attempt for a URL: the request either
returns (any status; `/assemble` never checks it, `/assemble-upload` turns
non-2xx into an exception via `raise_for_status`, folded into `exn`) or
raises. -/
inductive FetchOutcome
  | ok
  | exn
deriving DecidableEq, Repr

/-- Environment of one clip URL: the fetch-attempt oracle and the outcome
of the ffmpeg normalization run for this clip (exit code of the process,
whether the output file exists afterwards, and its size in bytes). -/
structure ClipEnv where
  fetch : Nat → FetchOutcome
  normExit : Int
  normExists : Bool
  normSize : Nat

/-- Environment (external world) of one request, covering the fields both
handlers read.  `hasAudioFile`/`audioFilenameEmpty` are read by
`/assemble-upload`; `hasAudioUrl`/`audioFetch`/`hasAudioB64` by
`/assemble` (`audioFetch` is the attempt oracle for the audio URL).
`probeOut` is the parsed ffprobe stdout (`none` = empty
stdout).  `finalExit`/`finalExists`/`finalSize` describe the final ffmpeg
concat+mux run.  `exnAt = some k` injects an arbitrary exception at stage
boundary `k` of the handler body. -/
structure Env where
  hasAudioFile : Bool
  audioFilenameEmpty : Bool
  hasAudioUrl : Bool
  audioFetch : Nat → FetchOutcome
  hasAudioB64 : Bool
  probeOut : Option ℚ
  clips : List ClipEnv
  finalExit : Int
  finalExists : Bool
  finalSize : Nat
  exnAt : Option Nat

/-- HTTP response of a handler: the final video file
(`send_file(output_path, ...)`) or a JSON error with a status code. -/
inductive Response
  | file
  | jsonError (status : Nat) (msg : String)
deriving DecidableEq, Repr

/-- Outcome of the handler body (the `try` block): a returned response, or
a raised exception (caught by the `except` clause). -/
inductive Outcome
  | resp (r : Response)
  | exn
deriving DecidableEq, Repr

/-- A file path: (directory, file name).  Every file the handlers create
is `os.path.join(job_dir, name)`. -/
abbrev Path := String × String

/-- Result of running one handler body: its outcome, the computed
per-clip time (`time_per_clip`) if the division was reached, the indices
of successfully downloaded clips, the clip indices written to the concat
file (final artifact order), the names of files created in the job
directory, and whether a division with zero divisor was reached
(a `ZeroDivisionError` in Python). -/
structure RunResult where
  out : Outcome
  tpc : Option ℚ
  downloaded : List Nat
  concatOrder : List Nat
  fsNames : List String
  divByZero : Bool
deriving DecidableEq, Repr

/-- Whether the single `requests.get` performed for this URL returns:
the source consults only attempt 0 of the oracle, since there is no retry
wrapper around any fetch. -/
def attemptOk (f : Nat → FetchOutcome) : Bool :=
  match f 0 with
  | .ok => true
  | .exn => false

/-- The single fetch of one clip URL. -/
def fetchOk (c : ClipEnv) : Bool :=
  attemptOk c.fetch

/-- The normalization success check of the source
(`os.path.exists(npath) and os.path.getsize(npath) > 0`, lines 85 and
244): it reads only the output file, never the ffmpeg exit code. -/
def normOk (c : ClipEnv) : Bool :=
  c.normExists && decide (0 < c.normSize)

/-- The final-assembly success check of the source (lines 114 and 285):
`os.path.exists(output_path) and os.path.getsize(output_path) > 0`; the
`exitCode` argument records that the ffmpeg exit status is available but
not consulted. -/
def ffmpegOutputOk (exitCode : Int) (outExists : Bool) (outSize : Nat) : Bool :=
  outExists && decide (0 < outSize)

/-- Download loop of `/assemble-upload` (lines 199-215): iterate over the
capped URL list with running index `i`; a clip whose fetch raises is
skipped (`except ... continue`), a clip whose fetch returns is appended to
`video_paths`. -/
def downloadLoop : Nat → List ClipEnv → List (Nat × ClipEnv)
  | _, [] => []
  | i, c :: cs =>
    if fetchOk c then (i, c) :: downloadLoop (i + 1) cs
    else downloadLoop (i + 1) cs

/-- Download loop of `/assemble` (lines 59-65): no try/except around
`requests.get`, so the first raising fetch aborts the loop and propagates
the exception (second component `true`); clips downloaded before the
fault are kept in the first component (their files exist on disk). -/
def downloadLoopA : Nat → List ClipEnv → List (Nat × ClipEnv) × Bool
  | _, [] => ([], false)
  | i, c :: cs =>
    if fetchOk c then
      let r := downloadLoopA (i + 1) cs
      ((i, c) :: r.1, r.2)
    else ([], true)

/-- The division `audio_duration / len(video_paths)` (lines 71 and 224).  It
is fallible: a zero divisor would raise `ZeroDivisionError` in Python,
modelled as `none`. -/
def timePerClip (d : ℚ) (n : Nat) : Option ℚ :=
  if n = 0 then none else some (d / (n : ℚ))

/-- File name of the i-th downloaded clip (`f"clip_{i}.mp4"`). -/
def clipName (i : Nat) : String :=
  "clip_" ++ toString i ++ ".mp4"

/-- File name of the i-th normalized clip (`f"norm_{i}.mp4"`). -/
def normName (i : Nat) : String :=
  "norm_" ++ toString i ++ ".mp4"

/-- Shared tail of both handler bodies (normalize loop, concat-file
write, final ffmpeg pass, output check): the two sections are
line-identical in the source (lines 73-122 and 227-298).  `t` is the
computed `time_per_clip`, `dl` the downloaded clips with indices, `fs`
the file names created so far, `idx` the downloaded indices. -/
def pipelineTail (env : Env) (t : ℚ) (dl : List (Nat × ClipEnv))
    (fs : List String) (idx : List Nat) : RunResult :=
  if env.exnAt = some 3 then ⟨.exn, some t, idx, [], fs, false⟩ else
  let srv := dl.filter (fun ic => normOk ic.2)
  let fsN := fs ++ srv.map (fun ic => normName ic.1)
  if srv.isEmpty then
    ⟨.resp (.jsonError 500 "All video normalizations failed"), some t, idx, [], fsN, false⟩
  else if env.exnAt = some 4 then ⟨.exn, some t, idx, [], fsN, false⟩ else
  let fsC := fsN ++ ["concat.txt"]
  if env.exnAt = some 5 then ⟨.exn, some t, idx, srv.map (fun ic => ic.1), fsC, false⟩ else
  let fsF := fsC ++ (if env.finalExists then ["final.mp4"] else [])
  if ffmpegOutputOk env.finalExit env.finalExists env.finalSize then
    ⟨.resp .file, some t, idx, srv.map (fun ic => ic.1), fsF, false⟩
  else
    ⟨.resp (.jsonError 500 "Final video not created"), some t, idx, srv.map (fun ic => ic.1), fsF, false⟩

/-- Body of the `/assemble-upload` handler (the `try` block, lines
149-298). -/
def runUpload (env : Env) : RunResult :=
  if env.exnAt = some 0 then ⟨.exn, none, [], [], [], false⟩ else
  if !env.hasAudioFile then
    ⟨.resp (.jsonError 400 "No audio file provided"), none, [], [], [], false⟩ else
  if env.audioFilenameEmpty then
    ⟨.resp (.jsonError 400 "Empty audio filename"), none, [], [], [], false⟩ else
  let fs0 := ["audio.mp3"]
  if env.exnAt = some 1 then ⟨.exn, none, [], [], fs0, false⟩ else
  match env.probeOut with
  | none =>
    ⟨.resp (.jsonError 400 "Failed to determine audio duration"), none, [], [], fs0, false⟩
  | some d =>
    if env.clips.isEmpty then
      ⟨.resp (.jsonError 400 "No video URLs provided"), none, [], [], fs0, false⟩ else
    if env.exnAt = some 2 then ⟨.exn, none, [], [], fs0, false⟩ else
    let dl := downloadLoop 0 (env.clips.take 5)
    let fs1 := fs0 ++ dl.map (fun ic => clipName ic.1)
    if dl.isEmpty then
      ⟨.resp (.jsonError 400 "Failed to download any video clips"), none, [], [], fs1, false⟩ else
    match timePerClip d dl.length with
    | none => ⟨.exn, none, dl.map (fun ic => ic.1), [], fs1, true⟩
    | some t => pipelineTail env t dl fs1 (dl.map (fun ic => ic.1))

/-- Body of the `/assemble` handler (the `try` block, lines 22-122). -/
def runAssemble (env : Env) : RunResult :=
  if env.exnAt = some 0 then ⟨.exn, none, [], [], [], false⟩ else
  if env.hasAudioUrl && !attemptOk env.audioFetch then ⟨.exn, none, [], [], [], false⟩ else
  if !env.hasAudioUrl && !env.hasAudioB64 then
    ⟨.resp (.jsonError 400 "No audio provided"), none, [], [], [], false⟩ else
  let fs0 := ["audio.wav"]
  if env.exnAt = some 1 then ⟨.exn, none, [], [], fs0, false⟩ else
  match env.probeOut with
  | none =>
    ⟨.resp (.jsonError 400 "Failed to determine audio duration"), none, [], [], fs0, false⟩
  | some d =>
    if env.exnAt = some 2 then ⟨.exn, none, [], [], fs0, false⟩ else
    let dla := downloadLoopA 0 (env.clips.take 3)
    let fs1 := fs0 ++ dla.1.map (fun ic => clipName ic.1)
    if dla.2 then ⟨.exn, none, dla.1.map (fun ic => ic.1), [], fs1, false⟩ else
    if dla.1.isEmpty then
      ⟨.resp (.jsonError 400 "No video clips provided"), none, [], [], fs1, false⟩ else
    match timePerClip d dla.1.length with
    | none => ⟨.exn, none, dla.1.map (fun ic => ic.1), [], fs1, true⟩
    | some t => pipelineTail env t dla.1 fs1 (dla.1.map (fun ic => ic.1))

/-- Paths of the job-directory files with the given names
(`os.path.join(job_dir, name)`). -/
def jfiles (jd : String) (ns : List String) : List Path :=
  ns.map (fun n => (jd, n))

/-- Model of `shutil.rmtree(job_dir, ignore_errors=True)`: removes every path whose
directory component is the job directory. -/
def rmtree (jd : String) (fs : List Path) : List Path :=
  fs.filter (fun p => !(p.1 == jd))

/-- The `except Exception as e: return jsonify({"error": str(e)}), 500`
clause shared by both handlers. -/
def responseOf : Outcome → Response
  | .resp r => r
  | .exn => .jsonError 500 "exception"

/-- The `/assemble-upload` handler: run the body under `try/except`, then
the `finally` block removes the job directory; returns the response sent
to the caller and the files remaining on disk under the work root from
this job. -/
def assembleUploadHandler (jd : String) (env : Env) : Response × List Path :=
  let r := runUpload env
  (responseOf r.out, rmtree jd (jfiles jd r.fsNames))

/-- The `/assemble` handler: run the body under `try/except`, then the
`finally` block removes the job directory. -/
def assembleHandler (jd : String) (env : Env) : Response × List Path :=
  let r := runAssemble env
  (responseOf r.out, rmtree jd (jfiles jd r.fsNames))

/-- Total targeted duration of the final artifact: the number of clips in
the concat file times the per-clip target duration. -/
def totalTarget (r : RunResult) : ℚ :=
  r.concatOrder.length * r.tpc.getD 0

/-- Request preconditions under which the `/assemble-upload` body reaches
the ffprobe step with no injected fault: an audio part with a non-empty
filename is present. -/
def uploadPre (env : Env) : Prop :=
  env.hasAudioFile = true ∧ env.audioFilenameEmpty = false ∧ env.exnAt = none

instance (env : Env) : Decidable (uploadPre env) := by
  unfold uploadPre
  infer_instance

/-- Request preconditions under which the `/assemble` body reaches the
ffprobe step with no injected fault: an audio URL whose single fetch
returns, or no URL but inline base64 audio. -/
def assemblePre (env : Env) : Prop :=
  (env.hasAudioUrl = true ∧ attemptOk env.audioFetch = true ∨
    env.hasAudioUrl = false ∧ env.hasAudioB64 = true) ∧ env.exnAt = none

instance (env : Env) : Decidable (assemblePre env) := by
  unfold assemblePre
  infer_instance

/-- Freeze a clip's fetch oracle to its first attempt: attempts after the
first become irrelevant. -/
def freezeClip (c : ClipEnv) : ClipEnv :=
  ⟨fun _ => c.fetch 0, c.normExit, c.normExists, c.normSize⟩

/-- Freeze every fetch oracle (audio and clips) of a request environment
to its first attempt. -/
def freezeEnv (env : Env) : Env :=
  ⟨env.hasAudioFile, env.audioFilenameEmpty, env.hasAudioUrl,
    fun _ => env.audioFetch 0, env.hasAudioB64, env.probeOut,
    env.clips.map freezeClip, env.finalExit, env.finalExists, env.finalSize,
    env.exnAt⟩

/-- Overwrite a clip's normalization exit code. -/
def setExitClip (e : Int) (c : ClipEnv) : ClipEnv :=
  ⟨c.fetch, e, c.normExists, c.normSize⟩

/-- Overwrite every transcoder exit code of the request (each per-clip
normalization and the final assembly) with `e`. -/
def setExits (e : Int) (env : Env) : Env :=
  ⟨env.hasAudioFile, env.audioFilenameEmpty, env.hasAudioUrl, env.audioFetch,
    env.hasAudioB64, env.probeOut, env.clips.map (setExitClip e), e,
    env.finalExists, env.finalSize, env.exnAt⟩

/-- Modelled from the spec: the bounded RetryPolicy of §4.1 wrapped around
a fetch ("Wrapped in RetryPolicy with 3 attempts").  No such wrapper
exists in `src/app.py`; this definition follows the spec words for
comparison: attempts are executed in order and the fetch succeeds iff one
of the first `maxAttempts` attempts returns. -/
def specRetryFetch (maxAttempts : Nat) (f : Nat → FetchOutcome) : FetchOutcome :=
  if (List.range maxAttempts).any (fun i => decide (f i = .ok)) then .ok else .exn

/-- A clip whose every fetch attempt returns and whose normalization
produces a non-empty output. -/
def okClip : ClipEnv :=
  ⟨fun _ => .ok, 0, true, 1000⟩

/-- A clip whose every fetch attempt raises. -/
def badFetchClip : ClipEnv :=
  ⟨fun _ => .exn, 0, true, 1000⟩

/-- A clip that downloads but whose normalization leaves no output
file. -/
def badNormClip : ClipEnv :=
  ⟨fun _ => .ok, 0, false, 0⟩

/-- A transient failure: attempt 1 raises, every later attempt
returns. -/
def transientFetch : Nat → FetchOutcome :=
  fun n => if n = 0 then .exn else .ok

/-- A clip whose fetch is `transientFetch` and whose normalization would
succeed. -/
def transientClip : ClipEnv :=
  ⟨transientFetch, 0, true, 1000⟩

/-- A fault-free request environment with probe result `p` and clip list
`cs`: audio present on both endpoints, final assembly produces a non-empty
output. -/
def envWith (p : Option ℚ) (cs : List ClipEnv) : Env :=
  ⟨true, false, true, fun _ => .ok, false, p, cs, 0, true, 2000, none⟩

/-- Effect of one download on memory and disk: the peak number of body
bytes held in memory at once, and the sequence of write calls (each a
byte list) made to the destination file. -/
structure FetchEffect where
  bufferedBytes : Nat
  writes : List (List Nat)
deriving DecidableEq, Repr

/-- Model of `r = requests.get(url)` without `stream=True` (lines 29, 61, 205):
`r.content` materializes the whole response body in memory. -/
def requestsGetContent (body : List Nat) : List Nat :=
  body

/-- The download step of the source (lines 29-31, 61-63, 205-208):
`r = requests.get(url)` followed by a single `f.write(r.content)`.  The
whole body is buffered at once and written in one call. -/
def fetchToDisk (body : List Nat) : FetchEffect :=
  ⟨(requestsGetContent body).length, [requestsGetContent body]⟩

/-- The claim's streaming property: downloads are written in fixed-size
chunks, so the bytes buffered in memory at once are bounded by a constant
independent of the payload. -/
def fetchBufferBounded : Prop :=
  ∃ c : Nat, ∀ body : List Nat, (fetchToDisk body).bufferedBytes ≤ c

/-! ### Helper lemmas -/

lemma rmtree_jfiles (jd : String) (ns : List String) :
    rmtree jd (jfiles jd ns) = [] := by
  induction ns with
  | nil => rfl
  | cons n ns ih => simpa [rmtree, jfiles, List.filter] using ih

lemma pipelineTail_divByZero (env : Env) (t : ℚ) (dl : List (Nat × ClipEnv))
    (fs : List String) (idx : List Nat) :
    (pipelineTail env t dl fs idx).divByZero = false := by
  simp only [pipelineTail]
  (repeat' split) <;> rfl

lemma pipelineTail_tpc (env : Env) (t : ℚ) (dl : List (Nat × ClipEnv))
    (fs : List String) (idx : List Nat) :
    (pipelineTail env t dl fs idx).tpc = some t := by
  simp only [pipelineTail]
  (repeat' split) <;> rfl

lemma pipelineTail_out (env : Env) (t : ℚ) (dl : List (Nat × ClipEnv))
    (fs : List String) (idx : List Nat) (hex : env.exnAt = none) :
    (pipelineTail env t dl fs idx).out =
      (if (dl.filter (fun ic => normOk ic.2)).isEmpty then
        .resp (.jsonError 500 "All video normalizations failed")
      else if ffmpegOutputOk env.finalExit env.finalExists env.finalSize then
        .resp .file
      else .resp (.jsonError 500 "Final video not created")) := by
  simp only [pipelineTail, hex]
  (repeat' split) <;> simp_all

lemma pipelineTail_concatOrder (env : Env) (t : ℚ) (dl : List (Nat × ClipEnv))
    (fs : List String) (idx : List Nat) (hex : env.exnAt = none)
    (hsrv : (dl.filter (fun ic => normOk ic.2)).isEmpty = false) :
    (pipelineTail env t dl fs idx).concatOrder =
      (dl.filter (fun ic => normOk ic.2)).map (fun ic => ic.1) := by
  simp only [pipelineTail, hex, hsrv]
  (repeat' split) <;> simp_all

lemma timePerClip_of_not_empty {α : Type} (d : ℚ) (l : List α)
    (h : l.isEmpty = false) :
    timePerClip d l.length = some (d / (l.length : ℚ)) := by
  unfold timePerClip
  rw [if_neg]
  intro h0
  rw [List.length_eq_zero] at h0
  subst h0
  simp at h

lemma isEmpty_map {α β : Type} (f : α → β) (l : List α) :
    (l.map f).isEmpty = l.isEmpty := by
  cases l <;> rfl

lemma map_fst_map_prodMap (g : ClipEnv → ClipEnv) (s : List (Nat × ClipEnv)) :
    (s.map (Prod.map id g)).map (fun ic => ic.1) = s.map (fun ic => ic.1) := by
  rw [List.map_map]
  congr 1

lemma map_name_map_prodMap (g : ClipEnv → ClipEnv) (f : Nat → String)
    (s : List (Nat × ClipEnv)) :
    (s.map (Prod.map id g)).map (fun ic => f ic.1) = s.map (fun ic => f ic.1) := by
  rw [List.map_map]
  congr 1

lemma downloadLoop_all_ok (l : List ClipEnv) (i : Nat)
    (h : ∀ c ∈ l, fetchOk c = true) :
    downloadLoop i l = (List.range' i l.length).zip l := by
  induction l generalizing i with
  | nil => rfl
  | cons c cs ih =>
    have hc : fetchOk c = true := h c (List.mem_cons_self c cs)
    rw [List.length_cons, List.range'_succ, List.zip_cons_cons]
    simp only [downloadLoop, hc, if_true]
    rw [ih (i + 1) (fun x hx => h x (List.mem_cons_of_mem c hx))]

lemma downloadLoop_length_all_ok (l : List ClipEnv) (i : Nat)
    (h : ∀ c ∈ l, fetchOk c = true) :
    (downloadLoop i l).length = l.length := by
  rw [downloadLoop_all_ok l i h, List.length_zip]
  simp

lemma downloadLoop_map_fst_all_ok (l : List ClipEnv)
    (h : ∀ c ∈ l, fetchOk c = true) :
    (downloadLoop 0 l).map (fun ic => ic.1) = List.range l.length := by
  rw [downloadLoop_all_ok l 0 h, List.range_eq_range']
  exact List.map_fst_zip _ _ (by simp)

lemma downloadLoop_snd_mem (l : List ClipEnv) (i : Nat) :
    ∀ ic ∈ downloadLoop i l, ic.2 ∈ l := by
  induction l generalizing i with
  | nil =>
    intro ic hm
    simp [downloadLoop] at hm
  | cons c cs ih =>
    intro ic hm
    simp only [downloadLoop] at hm
    split at hm
    · rcases List.mem_cons.mp hm with h1 | h2
      · rw [h1]
        exact List.mem_cons_self c cs
      · exact List.mem_cons_of_mem c (ih (i + 1) ic h2)
    · exact List.mem_cons_of_mem c (ih (i + 1) ic hm)

lemma downloadLoopA_all_ok (l : List ClipEnv) (i : Nat)
    (h : ∀ c ∈ l, fetchOk c = true) :
    downloadLoopA i l = (downloadLoop i l, false) := by
  induction l generalizing i with
  | nil => rfl
  | cons c cs ih =>
    have hc : fetchOk c = true := h c (List.mem_cons_self c cs)
    simp only [downloadLoopA, downloadLoop, hc, if_true,
      ih (i + 1) (fun x hx => h x (List.mem_cons_of_mem c hx))]

lemma downloadLoop_map (g : ClipEnv → ClipEnv)
    (hg : ∀ c, fetchOk (g c) = fetchOk c) (l : List ClipEnv) (i : Nat) :
    downloadLoop i (l.map g) = (downloadLoop i l).map (Prod.map id g) := by
  induction l generalizing i with
  | nil => rfl
  | cons c cs ih =>
    simp only [List.map_cons, downloadLoop, hg c]
    by_cases hc : fetchOk c = true
    · simp [hc, ih, Prod.map]
    · simp [hc, ih]

lemma downloadLoopA_map (g : ClipEnv → ClipEnv)
    (hg : ∀ c, fetchOk (g c) = fetchOk c) (l : List ClipEnv) (i : Nat) :
    downloadLoopA i (l.map g) =
      ((downloadLoopA i l).1.map (Prod.map id g), (downloadLoopA i l).2) := by
  induction l generalizing i with
  | nil => rfl
  | cons c cs ih =>
    simp only [List.map_cons, downloadLoopA, hg c]
    by_cases hc : fetchOk c = true
    · simp [hc, ih, Prod.map]
    · simp [hc]

lemma pipelineTail_congr (env env' : Env) (g : ClipEnv → ClipEnv)
    (hg : ∀ c, normOk (g c) = normOk c)
    (e5 : env'.finalExists = env.finalExists)
    (e6 : env'.finalSize = env.finalSize)
    (e7 : env'.exnAt = env.exnAt)
    (t : ℚ) (dl : List (Nat × ClipEnv)) (fs : List String) (idx : List Nat) :
    pipelineTail env' t (dl.map (Prod.map id g)) fs idx =
      pipelineTail env t dl fs idx := by
  have hfil : (dl.map (Prod.map id g)).filter (fun ic => normOk ic.2) =
      (dl.filter (fun ic => normOk ic.2)).map (Prod.map id g) := by
    rw [List.filter_map]
    congr 1
    apply List.filter_congr
    intro ic _
    simp [Prod.map, hg]
  simp only [pipelineTail, hfil, e5, e6, e7, ffmpegOutputOk, isEmpty_map,
    map_fst_map_prodMap, map_name_map_prodMap]

/-- The run `runUpload` depends on each clip only through `fetchOk` and `normOk`,
and on the final ffmpeg run only through existence and size of the output
file: transforming every clip with a `g` preserving those (and keeping all
other request fields) leaves the run result unchanged. -/
lemma runUpload_congr (env env' : Env) (g : ClipEnv → ClipEnv)
    (hg1 : ∀ c, fetchOk (g c) = fetchOk c)
    (hg2 : ∀ c, normOk (g c) = normOk c)
    (e1 : env'.hasAudioFile = env.hasAudioFile)
    (e2 : env'.audioFilenameEmpty = env.audioFilenameEmpty)
    (e3 : env'.probeOut = env.probeOut)
    (e4 : env'.clips = env.clips.map g)
    (e5 : env'.finalExists = env.finalExists)
    (e6 : env'.finalSize = env.finalSize)
    (e7 : env'.exnAt = env.exnAt) :
    runUpload env' = runUpload env := by
  have hdl : downloadLoop 0 ((env.clips.map g).take 5) =
      (downloadLoop 0 (env.clips.take 5)).map (Prod.map id g) := by
    rw [← List.map_take, downloadLoop_map g hg1]
  cases hp : env.probeOut with
  | none =>
    simp only [runUpload, e1, e2, e3, e4, e7, hp, isEmpty_map]
  | some d =>
    simp only [runUpload, e1, e2, e3, e4, e7, hp, isEmpty_map, hdl,
      List.length_map, map_fst_map_prodMap, map_name_map_prodMap,
      pipelineTail_congr env env' g hg2 e5 e6 e7]

/-- Counterpart of `runUpload_congr` for `/assemble`. -/
lemma runAssemble_congr (env env' : Env) (g : ClipEnv → ClipEnv)
    (hg1 : ∀ c, fetchOk (g c) = fetchOk c)
    (hg2 : ∀ c, normOk (g c) = normOk c)
    (e1 : env'.hasAudioUrl = env.hasAudioUrl)
    (e2 : attemptOk env'.audioFetch = attemptOk env.audioFetch)
    (e2b : env'.hasAudioB64 = env.hasAudioB64)
    (e3 : env'.probeOut = env.probeOut)
    (e4 : env'.clips = env.clips.map g)
    (e5 : env'.finalExists = env.finalExists)
    (e6 : env'.finalSize = env.finalSize)
    (e7 : env'.exnAt = env.exnAt) :
    runAssemble env' = runAssemble env := by
  have hdl : downloadLoopA 0 ((env.clips.map g).take 3) =
      ((downloadLoopA 0 (env.clips.take 3)).1.map (Prod.map id g),
        (downloadLoopA 0 (env.clips.take 3)).2) := by
    rw [← List.map_take, downloadLoopA_map g hg1]
  cases hp : env.probeOut with
  | none =>
    simp only [runAssemble, e1, e2, e2b, e3, e4, e7, hp, isEmpty_map]
  | some d =>
    simp only [runAssemble, e1, e2, e2b, e3, e4, e7, hp, isEmpty_map, hdl,
      List.length_map, map_fst_map_prodMap, map_name_map_prodMap,
      pipelineTail_congr env env' g hg2 e5 e6 e7]

/-- On a fault-free request that passes the audio checks, probe, URL-list
check and the downloaded-list check, `runUpload` is the shared pipeline
tail applied to the downloaded clips and the division result. -/
lemma runUpload_reach (env : Env) (d : ℚ) (hpre : uploadPre env)
    (h4 : env.probeOut = some d) (h5 : env.clips.isEmpty = false)
    (h6 : (downloadLoop 0 (env.clips.take 5)).isEmpty = false) :
    runUpload env =
      pipelineTail env (d / ((downloadLoop 0 (env.clips.take 5)).length : ℚ))
        (downloadLoop 0 (env.clips.take 5))
        ("audio.mp3" :: (downloadLoop 0 (env.clips.take 5)).map (fun ic => clipName ic.1))
        ((downloadLoop 0 (env.clips.take 5)).map (fun ic => ic.1)) := by
  obtain ⟨h1, h2, h3⟩ := hpre
  simp only [runUpload, h1, h2, h3, h4, h5, h6,
    timePerClip_of_not_empty d _ h6]
  rfl

/-- Counterpart of `runUpload_reach` for `/assemble`. -/
lemma runAssemble_reach (env : Env) (d : ℚ) (hpre : assemblePre env)
    (h4 : env.probeOut = some d)
    (h5 : (downloadLoopA 0 (env.clips.take 3)).2 = false)
    (h6 : (downloadLoopA 0 (env.clips.take 3)).1.isEmpty = false) :
    runAssemble env =
      pipelineTail env (d / (((downloadLoopA 0 (env.clips.take 3)).1.length : ℚ)))
        (downloadLoopA 0 (env.clips.take 3)).1
        ("audio.wav" :: (downloadLoopA 0 (env.clips.take 3)).1.map (fun ic => clipName ic.1))
        ((downloadLoopA 0 (env.clips.take 3)).1.map (fun ic => ic.1)) := by
  obtain ⟨h12, h3⟩ := hpre
  have hcond : (env.hasAudioUrl && !attemptOk env.audioFetch) = false := by
    rcases h12 with ⟨ha, hb⟩ | ⟨ha, hb⟩ <;> simp [ha, hb]
  have hcond2 : (!env.hasAudioUrl && !env.hasAudioB64) = false := by
    rcases h12 with ⟨ha, hb⟩ | ⟨ha, hb⟩ <;> simp [ha, hb]
  simp only [runAssemble, h3, h4, h5, h6, hcond, hcond2,
    timePerClip_of_not_empty d _ h6]
  rfl

/-! ### C1 and C10 -/

/-- Claim C1: for every request to either endpoint, the job workspace
directory is removed before the response is returned, on every exit path
(success, every error response, and any injected exception `env.exnAt`):
no file under the job directory survives the handler. -/
theorem C1_workspace_always_removed (jd : String) (env : Env) :
    (assembleUploadHandler jd env).2 = [] ∧ (assembleHandler jd env).2 = [] :=
  ⟨rmtree_jfiles jd (runUpload env).fsNames,
   rmtree_jfiles jd (runAssemble env).fsNames⟩

/-- Claim C10: in both endpoints the `audio_duration / len(video_paths)`
division is reached only behind the non-empty check on the downloaded
clip list, so no request environment ever triggers the zero-divisor
branch (Python `ZeroDivisionError`). -/
theorem C10_no_division_by_zero (env : Env) :
    (runUpload env).divByZero = false ∧ (runAssemble env).divByZero = false := by
  constructor
  · simp only [runUpload]
    (repeat' split) <;>
      simp_all [pipelineTail_divByZero, timePerClip, List.isEmpty_iff]
  · simp only [runAssemble]
    (repeat' split) <;>
      simp_all [pipelineTail_divByZero, timePerClip, List.isEmpty_iff]

/-! ### C4 -/

/-- Claim C4 counterexample: the request environment of a single clip
URL with a transient failure (attempt 1 raises, attempt 2 would return).
Under the claimed 3-attempt retry policy the fetch succeeds, but the
handler of `src/app.py` fails the job with 400 "Failed to download any
video clips": no fetch is ever retried. -/
theorem C4_counterexample :
    specRetryFetch 3 transientFetch = .ok ∧
    specRetryFetch 1 transientFetch = .exn ∧
    (assembleUploadHandler "job" (envWith (some 10) [transientClip])).1 =
      .jsonError 400 "Failed to download any video clips" := by
  refine ⟨by decide, by decide, ?_⟩
  rfl

/-- Claim C4 (amended): every clip/audio fetch is executed exactly once,
with no retry policy: both endpoints' results depend only on the first
attempt of every fetch oracle (freezing each oracle to its first attempt
changes nothing), so a transient failure on attempt 1 makes that fetch
fail even if attempt 2 would succeed. -/
theorem C4_single_fetch_attempt (env : Env) :
    runUpload (freezeEnv env) = runUpload env ∧
    runAssemble (freezeEnv env) = runAssemble env := by
  constructor
  · exact runUpload_congr env (freezeEnv env) freezeClip
      (fun c => rfl) (fun c => rfl) rfl rfl rfl rfl rfl rfl rfl
  · exact runAssemble_congr env (freezeEnv env) freezeClip
      (fun c => rfl) (fun c => rfl) rfl rfl rfl rfl rfl rfl rfl rfl

/-! ### C9 -/

/-- Claim C9: success of a per-clip normalization and of the final
assembly is decided solely by the output file existing with positive
size.  The transcoder exit status never influences the checks or the
overall run (overwriting every exit code leaves both endpoints' results
unchanged); a nonzero-exit run with non-empty output counts as success,
and a zero-exit run with missing or empty output counts as failure. -/
theorem C9_exit_status_ignored :
    (∀ (e1 e2 : Int) (ex : Bool) (s : Nat),
        ffmpegOutputOk e1 ex s = ffmpegOutputOk e2 ex s) ∧
    ffmpegOutputOk 1 true 1 = true ∧
    ffmpegOutputOk 0 false 1 = false ∧
    ffmpegOutputOk 0 true 0 = false ∧
    (∀ (c : ClipEnv) (e : Int), normOk (setExitClip e c) = normOk c) ∧
    (∀ (env : Env) (e : Int),
        runUpload (setExits e env) = runUpload env ∧
        runAssemble (setExits e env) = runAssemble env) := by
  refine ⟨fun _ _ _ _ => rfl, rfl, rfl, rfl, fun _ _ => rfl,
    fun env e => ⟨?_, ?_⟩⟩
  · exact runUpload_congr env (setExits e env) (setExitClip e)
      (fun c => rfl) (fun c => rfl) rfl rfl rfl rfl rfl rfl rfl
  · exact runAssemble_congr env (setExits e env) (setExitClip e)
      (fun c => rfl) (fun c => rfl) rfl rfl rfl rfl rfl rfl rfl rfl

/-! ### C6 -/

/-- Claim C6 counterexample: on an unreadable audio duration (empty
ffprobe stdout) the `/assemble-upload` handler responds with status 400,
which is not a 5xx status as the claim requires. -/
theorem C6_counterexample :
    (assembleUploadHandler "job" (envWith none [okClip])).1 =
      .jsonError 400 "Failed to determine audio duration" ∧
    ¬ 500 ≤ 400 := by
  exact ⟨rfl, by decide⟩

/-- Claim C6 (amended): when the audio duration cannot be read from the
probe (empty ffprobe stdout), both endpoints fail the job loudly with a
400 "Failed to determine audio duration" response — the duration is never
silently defaulted to 0 (no per-clip time is ever computed). -/
theorem C6_probe_failure_fails_with_400 (jd : String) (env : Env)
    (hp : env.probeOut = none) :
    (uploadPre env →
      (assembleUploadHandler jd env).1 =
        .jsonError 400 "Failed to determine audio duration" ∧
      (runUpload env).tpc = none) ∧
    (assemblePre env →
      (assembleHandler jd env).1 =
        .jsonError 400 "Failed to determine audio duration" ∧
      (runAssemble env).tpc = none) := by
  constructor
  · rintro ⟨h1, h2, h3⟩
    have hr : runUpload env =
        ⟨.resp (.jsonError 400 "Failed to determine audio duration"),
          none, [], [], ["audio.mp3"], false⟩ := by
      simp only [runUpload, h1, h2, h3, hp]
      rfl
    constructor
    · show responseOf (runUpload env).out = _
      rw [hr]
      rfl
    · rw [hr]
  · rintro ⟨h12, h3⟩
    have hcond : (env.hasAudioUrl && !attemptOk env.audioFetch) = false := by
      rcases h12 with ⟨ha, hb⟩ | ⟨ha, hb⟩ <;> simp [ha, hb]
    have hcond2 : (!env.hasAudioUrl && !env.hasAudioB64) = false := by
      rcases h12 with ⟨ha, hb⟩ | ⟨ha, hb⟩ <;> simp [ha, hb]
    have hr : runAssemble env =
        ⟨.resp (.jsonError 400 "Failed to determine audio duration"),
          none, [], [], ["audio.wav"], false⟩ := by
      simp only [runAssemble, h3, hp, hcond, hcond2]
      rfl
    constructor
    · show responseOf (runAssemble env).out = _
      rw [hr]
      rfl
    · rw [hr]

/-- Witness for C6: a concrete environment with empty probe output hits
the 400 branch of both endpoints and never computes a per-clip time. -/
theorem C6_witness :
    (assembleUploadHandler "job" (envWith none [okClip])).1 =
      .jsonError 400 "Failed to determine audio duration" ∧
    (runUpload (envWith none [okClip])).tpc = none ∧
    (assembleHandler "job" (envWith none [okClip])).1 =
      .jsonError 400 "Failed to determine audio duration" ∧
    (runAssemble (envWith none [okClip])).tpc = none := by
  have h := C6_probe_failure_fails_with_400 "job" (envWith none [okClip]) rfl
  have hu := h.1 (by decide)
  have ha := h.2 (by decide)
  exact ⟨hu.1, hu.2, ha.1, ha.2⟩

/-! ### C5 -/

/-- Claim C5 counterexample: a 90-second probed audio with 3 clips is
divided as 90/3 = 30 seconds per clip on BOTH endpoints: no ceiling is
applied before the division anywhere in the program, while the claim's
trim to a 60-second ceiling would give 20. -/
theorem C5_counterexample :
    (runUpload (envWith (some 90) [okClip, okClip, okClip])).tpc = some 30 ∧
    (runAssemble (envWith (some 90) [okClip, okClip, okClip])).tpc = some 30 ∧
    (30 : ℚ) ≠ 60 / 3 := by
  refine ⟨?_, ?_, by norm_num⟩
  · rw [runUpload_reach (envWith (some 90) [okClip, okClip, okClip]) 90
      (by decide) rfl rfl rfl, pipelineTail_tpc]
    have hlen : (downloadLoop 0
        ((envWith (some 90) [okClip, okClip, okClip]).clips.take 5)).length = 3 := rfl
    rw [hlen]
    norm_num
  · rw [runAssemble_reach (envWith (some 90) [okClip, okClip, okClip]) 90
      (by decide) rfl rfl rfl, pipelineTail_tpc]
    have hlen : ((downloadLoopA 0
        ((envWith (some 90) [okClip, okClip, okClip]).clips.take 3)).1).length = 3 := rfl
    rw [hlen]
    norm_num

/-- Claim C5 (amended): no duration ceiling or trim exists anywhere in
the program: on both endpoints the probed duration is adopted unchanged,
so audio longer than the claimed 60-second ceiling still divides its
full duration — the per-clip time is `d / F` for `F` downloaded clips,
strictly more than the `60 / F` a trim to the ceiling would give. -/
theorem C5_no_audio_ceiling (env : Env) (d : ℚ)
    (hp : env.probeOut = some d) (hd : 60 < d) :
    (uploadPre env → env.clips.isEmpty = false →
      (downloadLoop 0 (env.clips.take 5)).isEmpty = false →
      (runUpload env).tpc =
        some (d / ((downloadLoop 0 (env.clips.take 5)).length : ℚ)) ∧
      (60 : ℚ) / ((downloadLoop 0 (env.clips.take 5)).length : ℚ) <
        d / ((downloadLoop 0 (env.clips.take 5)).length : ℚ)) ∧
    (assemblePre env → (downloadLoopA 0 (env.clips.take 3)).2 = false →
      (downloadLoopA 0 (env.clips.take 3)).1.isEmpty = false →
      (runAssemble env).tpc =
        some (d / (((downloadLoopA 0 (env.clips.take 3)).1.length : ℚ))) ∧
      (60 : ℚ) / (((downloadLoopA 0 (env.clips.take 3)).1.length : ℚ)) <
        d / (((downloadLoopA 0 (env.clips.take 3)).1.length : ℚ))) := by
  constructor
  · intro hpre hc hdl
    have hne : downloadLoop 0 (env.clips.take 5) ≠ [] := by
      simpa [List.isEmpty_iff] using hdl
    have hF : (0 : ℚ) < ((downloadLoop 0 (env.clips.take 5)).length : ℚ) := by
      exact_mod_cast List.length_pos.mpr hne
    constructor
    · rw [runUpload_reach env d hpre hp hc hdl, pipelineTail_tpc]
    · exact (div_lt_div_iff_of_pos_right hF).mpr hd
  · intro hapre hflag hdl
    have hne : (downloadLoopA 0 (env.clips.take 3)).1 ≠ [] := by
      simpa [List.isEmpty_iff] using hdl
    have hF : (0 : ℚ) <
        (((downloadLoopA 0 (env.clips.take 3)).1.length : ℚ)) := by
      exact_mod_cast List.length_pos.mpr hne
    constructor
    · rw [runAssemble_reach env d hapre hp hflag hdl, pipelineTail_tpc]
    · exact (div_lt_div_iff_of_pos_right hF).mpr hd

/-- Witness for C5: a 90-second audio with three good clips gets
30 = 90/3 seconds per clip on both endpoints, above the 20 = 60/3 a trim
would give. -/
theorem C5_witness :
    ((runUpload (envWith (some 90) [okClip, okClip, okClip])).tpc =
      some ((90 : ℚ) / ((downloadLoop 0
        ((envWith (some 90) [okClip, okClip, okClip]).clips.take 5)).length : ℚ)) ∧
    (60 : ℚ) / ((downloadLoop 0
        ((envWith (some 90) [okClip, okClip, okClip]).clips.take 5)).length : ℚ) <
      (90 : ℚ) / ((downloadLoop 0
        ((envWith (some 90) [okClip, okClip, okClip]).clips.take 5)).length : ℚ)) ∧
    ((runAssemble (envWith (some 90) [okClip, okClip, okClip])).tpc =
      some ((90 : ℚ) / (((downloadLoopA 0
        ((envWith (some 90) [okClip, okClip, okClip]).clips.take 3)).1.length : ℚ))) ∧
    (60 : ℚ) / (((downloadLoopA 0
        ((envWith (some 90) [okClip, okClip, okClip]).clips.take 3)).1.length : ℚ)) <
      (90 : ℚ) / (((downloadLoopA 0
        ((envWith (some 90) [okClip, okClip, okClip]).clips.take 3)).1.length : ℚ))) := by
  have h := C5_no_audio_ceiling (envWith (some 90) [okClip, okClip, okClip]) 90
    rfl (by norm_num)
  exact ⟨h.1 (by decide) rfl rfl, h.2 (by decide) rfl rfl⟩

/-! ### C2 -/

/-- Claim C2 counterexample: two capped clips, the first of which fails
to download.  The division happens after the download loop, over the one
surviving clip: the survivor is targeted at the full 10 seconds
(`D / 1`), not at `D / C = 10 / 2` as the claim states — a fetch failure
does re-divide the target over the survivors. -/
theorem C2_counterexample :
    (runUpload (envWith (some 10) [badFetchClip, okClip])).downloaded = [1] ∧
    (runUpload (envWith (some 10) [badFetchClip, okClip])).tpc = some 10 ∧
    (10 : ℚ) ≠ 10 / 2 := by
  refine ⟨rfl, ?_, by norm_num⟩
  rw [runUpload_reach (envWith (some 10) [badFetchClip, okClip]) 10
    (by decide) rfl rfl rfl, pipelineTail_tpc]
  have hlen : (downloadLoop 0
      ((envWith (some 10) [badFetchClip, okClip]).clips.take 5)).length = 1 := rfl
  rw [hlen]
  norm_num

/-- Claim C2 (amended): the per-clip target is computed once, as the
probed audio duration `d` divided by the number `F` of successfully
DOWNLOADED clips (after the count cap) — so clips that fail to download
re-divide the target over the survivors.  Only normalization failures,
which occur after the division, keep the original target: when `N < F`
clips survive normalization, each is still targeted at `d / F`, and the
total targeted duration `N·(d/F)` of the artifact is strictly shorter
than `d`. -/
theorem C2_division_by_downloaded_count (env : Env) (d : ℚ)
    (hpre : uploadPre env) (hp : env.probeOut = some d) (hd : 0 < d)
    (hc : env.clips.isEmpty = false)
    (hdl : (downloadLoop 0 (env.clips.take 5)).isEmpty = false) :
    (runUpload env).tpc =
      some (d / ((downloadLoop 0 (env.clips.take 5)).length : ℚ)) ∧
    (((downloadLoop 0 (env.clips.take 5)).filter
        (fun ic => normOk ic.2)).isEmpty = false →
      ((downloadLoop 0 (env.clips.take 5)).filter
          (fun ic => normOk ic.2)).length <
        (downloadLoop 0 (env.clips.take 5)).length →
      totalTarget (runUpload env) < d) := by
  have hne : downloadLoop 0 (env.clips.take 5) ≠ [] := by
    simpa [List.isEmpty_iff] using hdl
  have hF : (0 : ℚ) < ((downloadLoop 0 (env.clips.take 5)).length : ℚ) := by
    exact_mod_cast List.length_pos.mpr hne
  have hr := runUpload_reach env d hpre hp hc hdl
  constructor
  · rw [hr, pipelineTail_tpc]
  · intro hsrv hlt
    have hco := pipelineTail_concatOrder env
      (d / ((downloadLoop 0 (env.clips.take 5)).length : ℚ))
      (downloadLoop 0 (env.clips.take 5))
      ("audio.mp3" :: (downloadLoop 0 (env.clips.take 5)).map (fun ic => clipName ic.1))
      ((downloadLoop 0 (env.clips.take 5)).map (fun ic => ic.1))
      hpre.2.2 hsrv
    unfold totalTarget
    rw [hr, hco, pipelineTail_tpc, Option.getD_some, List.length_map]
    have hNlt : ((((downloadLoop 0 (env.clips.take 5)).filter
        (fun ic => normOk ic.2)).length : ℚ)) <
        ((downloadLoop 0 (env.clips.take 5)).length : ℚ) := by
      exact_mod_cast hlt
    calc (((downloadLoop 0 (env.clips.take 5)).filter
            (fun ic => normOk ic.2)).length : ℚ) *
          (d / ((downloadLoop 0 (env.clips.take 5)).length : ℚ))
        = (((downloadLoop 0 (env.clips.take 5)).filter
            (fun ic => normOk ic.2)).length : ℚ) * d /
            ((downloadLoop 0 (env.clips.take 5)).length : ℚ) := by ring
      _ < ((downloadLoop 0 (env.clips.take 5)).length : ℚ) * d /
            ((downloadLoop 0 (env.clips.take 5)).length : ℚ) :=
          (div_lt_div_iff_of_pos_right hF).mpr (mul_lt_mul_of_pos_right hNlt hd)
      _ = d := by
          rw [mul_comm]
          exact mul_div_cancel_right₀ d (ne_of_gt hF)

/-- Witness for C2 (amended): two clips download, one fails
normalization: the survivor is targeted at 10/2 = 5 seconds and the total
targeted duration 5 is strictly shorter than the audio's 10 seconds. -/
theorem C2_witness :
    (runUpload (envWith (some 10) [okClip, badNormClip])).tpc =
      some ((10 : ℚ) / ((downloadLoop 0
        ((envWith (some 10) [okClip, badNormClip]).clips.take 5)).length : ℚ)) ∧
    totalTarget (runUpload (envWith (some 10) [okClip, badNormClip])) < 10 := by
  have h := C2_division_by_downloaded_count
    (envWith (some 10) [okClip, badNormClip]) 10 (by decide) rfl (by norm_num)
    rfl rfl
  exact ⟨h.1, h.2 rfl (by decide)⟩

/-! ### C3 -/

/-- Claim C3 counterexample: in `/assemble`, one clip whose fetch raises
aborts the whole job with a 500 error even though the other clip would
download and normalize fine — the failure is not absorbed locally and the
job does not continue with the remaining clips. -/
theorem C3_counterexample :
    (assembleHandler "job" (envWith (some 10) [badFetchClip, okClip])).1 =
      .jsonError 500 "exception" ∧
    fetchOk okClip = true ∧ normOk okClip = true := by
  exact ⟨rfl, rfl, rfl⟩

/-- Claim C3 (amended): in `/assemble-upload`, per-clip fetch and
normalization failures are absorbed and the job continues: once audio and
probe succeed and the URL list is non-empty, the response is fully
determined by the aggregate outcomes — 400 "Failed to download any video
clips" when every capped clip fails to download (a 4xx, not the claimed
5xx), 500 "All video normalizations failed" when clips download but every
normalization fails, and otherwise the final-assembly outcome (the file
on success, 500 "Final video not created" otherwise).  In `/assemble`,
by contrast, a single clip-fetch exception aborts the whole job with a
500 error. -/
theorem C3_per_clip_absorption (jd : String) (env : Env) (d : ℚ)
    (hpre : uploadPre env) (hp : env.probeOut = some d)
    (hc : env.clips.isEmpty = false) :
    (assembleUploadHandler jd env).1 =
      (if (downloadLoop 0 (env.clips.take 5)).isEmpty then
        .jsonError 400 "Failed to download any video clips"
      else if ((downloadLoop 0 (env.clips.take 5)).filter
          (fun ic => normOk ic.2)).isEmpty then
        .jsonError 500 "All video normalizations failed"
      else if ffmpegOutputOk env.finalExit env.finalExists env.finalSize then
        .file
      else .jsonError 500 "Final video not created") ∧
    ((downloadLoopA 0 (env.clips.take 3)).2 = true → assemblePre env →
      (assembleHandler jd env).1 = .jsonError 500 "exception") := by
  constructor
  · cases hdl : (downloadLoop 0 (env.clips.take 5)).isEmpty with
    | true =>
      have hr : (runUpload env).out =
          .resp (.jsonError 400 "Failed to download any video clips") := by
        simp only [runUpload, hpre.1, hpre.2.1, hpre.2.2, hp, hc, hdl]
        rfl
      show responseOf (runUpload env).out = _
      rw [hr]
      rfl
    | false =>
      have hr := runUpload_reach env d hpre hp hc hdl
      show responseOf (runUpload env).out = _
      rw [hr, pipelineTail_out _ _ _ _ _ hpre.2.2]
      simp only [hdl, Bool.false_eq_true, if_false]
      (repeat' split) <;> rfl
  · intro hflag hapre
    obtain ⟨h12, h3⟩ := hapre
    have hcond : (env.hasAudioUrl && !attemptOk env.audioFetch) = false := by
      rcases h12 with ⟨ha, hb⟩ | ⟨ha, hb⟩ <;> simp [ha, hb]
    have hcond2 : (!env.hasAudioUrl && !env.hasAudioB64) = false := by
      rcases h12 with ⟨ha, hb⟩ | ⟨ha, hb⟩ <;> simp [ha, hb]
    have hr : (runAssemble env).out = .exn := by
      simp only [runAssemble, h3, hp, hcond, hcond2, hflag]
      rfl
    show responseOf (runAssemble env).out = _
    rw [hr]
    rfl

/-- Witness for C3 (amended): with one clip failing its fetch and one
failing normalization, `/assemble-upload` still completes and returns the
file, while the same clips on `/assemble` abort the whole job with a 500
error. -/
theorem C3_witness :
    (assembleUploadHandler "job"
      (envWith (some 10) [badFetchClip, okClip, badNormClip])).1 = .file ∧
    (assembleHandler "job"
      (envWith (some 10) [badFetchClip, okClip, badNormClip])).1 =
      .jsonError 500 "exception" := by
  have h := C3_per_clip_absorption "job"
    (envWith (some 10) [badFetchClip, okClip, badNormClip]) 10
    (by decide) rfl rfl
  refine ⟨?_, h.2 rfl (by decide)⟩
  rw [h.1]
  rfl

/-! ### C7 -/

lemma isEmpty_false_of_ne_nil {α : Type} {l : List α} (h : l ≠ []) :
    l.isEmpty = false := by
  cases l with
  | nil => exact absurd rfl h
  | cons a t => rfl

/-- When every clip of `l` downloads and normalizes successfully, the
pipeline tail keeps all of them: the per-clip target is `d` divided by
the full count, the concat order is `0,…,l.length−1`, and the total
targeted duration is exactly `d`. -/
lemma allOk_run_facts (env : Env) (d : ℚ) (l : List ClipEnv)
    (hex : env.exnAt = none)
    (hfok : ∀ c ∈ l, fetchOk c = true)
    (hnok : ∀ c ∈ l, normOk c = true)
    (hlne : l ≠ []) (fs : List String) (idx : List Nat) :
    (pipelineTail env (d / ((downloadLoop 0 l).length : ℚ))
        (downloadLoop 0 l) fs idx).tpc = some (d / (l.length : ℚ)) ∧
    (pipelineTail env (d / ((downloadLoop 0 l).length : ℚ))
        (downloadLoop 0 l) fs idx).concatOrder = List.range l.length ∧
    totalTarget (pipelineTail env (d / ((downloadLoop 0 l).length : ℚ))
        (downloadLoop 0 l) fs idx) = d := by
  have hlen : (downloadLoop 0 l).length = l.length :=
    downloadLoop_length_all_ok l 0 hfok
  have hfil : (downloadLoop 0 l).filter (fun ic => normOk ic.2) =
      downloadLoop 0 l :=
    List.filter_eq_self.mpr
      (fun ic hic => hnok ic.2 (downloadLoop_snd_mem l 0 ic hic))
  have hdlne : downloadLoop 0 l ≠ [] := by
    intro h0
    apply hlne
    have hl := congrArg List.length h0
    rw [hlen] at hl
    exact List.length_eq_zero.mp hl
  have hsrvne : ((downloadLoop 0 l).filter
      (fun ic => normOk ic.2)).isEmpty = false := by
    rw [hfil]
    exact isEmpty_false_of_ne_nil hdlne
  have hC : ((l.length : ℚ)) ≠ 0 := by
    have : 0 < l.length := List.length_pos.mpr hlne
    exact_mod_cast Nat.pos_iff_ne_zero.mp this
  refine ⟨?_, ?_, ?_⟩
  · rw [pipelineTail_tpc, hlen]
  · rw [pipelineTail_concatOrder _ _ _ _ _ hex hsrvne, hfil,
      downloadLoop_map_fst_all_ok l hfok]
  · unfold totalTarget
    rw [pipelineTail_concatOrder _ _ _ _ _ hex hsrvne, hfil,
      downloadLoop_map_fst_all_ok l hfok, pipelineTail_tpc, Option.getD_some,
      List.length_range, hlen, mul_comm, div_mul_cancel₀ d hC]

/-- Claim C7: for every clip count ≥ 1 and audio duration `d`, when all
(capped) clips download and normalize successfully, both endpoints divide
evenly: the per-clip target is `d / count`, the per-clip targets sum back
to exactly `d` (exact in ℚ, the claim's floating-point tolerance), and
the concat file lists the clips in their original 0-based input order
`0,1,…,count−1`. -/
theorem C7_even_division_and_input_order (env : Env) (d : ℚ)
    (hok : ∀ c ∈ env.clips, fetchOk c = true ∧ normOk c = true)
    (hne : env.clips.isEmpty = false) (hp : env.probeOut = some d) :
    (uploadPre env →
      (runUpload env).tpc = some (d / ((env.clips.take 5).length : ℚ)) ∧
      totalTarget (runUpload env) = d ∧
      (runUpload env).concatOrder = List.range (env.clips.take 5).length) ∧
    (assemblePre env →
      (runAssemble env).tpc = some (d / ((env.clips.take 3).length : ℚ)) ∧
      totalTarget (runAssemble env) = d ∧
      (runAssemble env).concatOrder = List.range (env.clips.take 3).length) := by
  have hcne : env.clips ≠ [] := by
    intro h0
    rw [h0] at hne
    simp at hne
  constructor
  · intro hpre
    have hfok : ∀ c ∈ env.clips.take 5, fetchOk c = true :=
      fun c hc => (hok c (List.mem_of_mem_take hc)).1
    have hnok : ∀ c ∈ env.clips.take 5, normOk c = true :=
      fun c hc => (hok c (List.mem_of_mem_take hc)).2
    have hlne : env.clips.take 5 ≠ [] := by
      rw [ne_eq, List.take_eq_nil_iff]
      rintro (h5 | h0)
      · exact absurd h5 (by norm_num)
      · exact hcne h0
    have hdlne : downloadLoop 0 (env.clips.take 5) ≠ [] := by
      intro h0
      apply hlne
      have hl := congrArg List.length h0
      rw [downloadLoop_length_all_ok _ 0 hfok] at hl
      exact List.length_eq_zero.mp hl
    have hdl : (downloadLoop 0 (env.clips.take 5)).isEmpty = false :=
      isEmpty_false_of_ne_nil hdlne
    have hr := runUpload_reach env d hpre hp hne hdl
    have hf := allOk_run_facts env d (env.clips.take 5) hpre.2.2 hfok hnok hlne
      ("audio.mp3" :: (downloadLoop 0 (env.clips.take 5)).map (fun ic => clipName ic.1))
      ((downloadLoop 0 (env.clips.take 5)).map (fun ic => ic.1))
    rw [hr]
    exact ⟨hf.1, hf.2.2, hf.2.1⟩
  · intro hapre
    have hfok : ∀ c ∈ env.clips.take 3, fetchOk c = true :=
      fun c hc => (hok c (List.mem_of_mem_take hc)).1
    have hnok : ∀ c ∈ env.clips.take 3, normOk c = true :=
      fun c hc => (hok c (List.mem_of_mem_take hc)).2
    have hlne : env.clips.take 3 ≠ [] := by
      rw [ne_eq, List.take_eq_nil_iff]
      rintro (h3 | h0)
      · exact absurd h3 (by norm_num)
      · exact hcne h0
    have hAeq := downloadLoopA_all_ok (env.clips.take 3) 0 hfok
    have h5 : (downloadLoopA 0 (env.clips.take 3)).2 = false := by
      rw [hAeq]
    have h1 : (downloadLoopA 0 (env.clips.take 3)).1 =
        downloadLoop 0 (env.clips.take 3) := by
      rw [hAeq]
    have hdlne : downloadLoop 0 (env.clips.take 3) ≠ [] := by
      intro h0
      apply hlne
      have hl := congrArg List.length h0
      rw [downloadLoop_length_all_ok _ 0 hfok] at hl
      exact List.length_eq_zero.mp hl
    have hdl : (downloadLoopA 0 (env.clips.take 3)).1.isEmpty = false := by
      rw [h1]
      exact isEmpty_false_of_ne_nil hdlne
    have hr := runAssemble_reach env d hapre hp h5 hdl
    rw [h1] at hr
    have hf := allOk_run_facts env d (env.clips.take 3) hapre.2 hfok hnok hlne
      ("audio.wav" :: (downloadLoop 0 (env.clips.take 3)).map (fun ic => clipName ic.1))
      ((downloadLoop 0 (env.clips.take 3)).map (fun ic => ic.1))
    rw [hr]
    exact ⟨hf.1, hf.2.2, hf.2.1⟩

/-- Witness for C7: two good clips and a 10-second audio give 5 seconds
per clip on both endpoints, a 10-second total, and concat order [0, 1]. -/
theorem C7_witness :
    ((runUpload (envWith (some 10) [okClip, okClip])).tpc =
      some ((10 : ℚ) /
        (((envWith (some 10) [okClip, okClip]).clips.take 5).length : ℚ)) ∧
    totalTarget (runUpload (envWith (some 10) [okClip, okClip])) = 10 ∧
    (runUpload (envWith (some 10) [okClip, okClip])).concatOrder =
      List.range ((envWith (some 10) [okClip, okClip]).clips.take 5).length) ∧
    ((runAssemble (envWith (some 10) [okClip, okClip])).tpc =
      some ((10 : ℚ) /
        (((envWith (some 10) [okClip, okClip]).clips.take 3).length : ℚ)) ∧
    totalTarget (runAssemble (envWith (some 10) [okClip, okClip])) = 10 ∧
    (runAssemble (envWith (some 10) [okClip, okClip])).concatOrder =
      List.range ((envWith (some 10) [okClip, okClip]).clips.take 3).length) := by
  have h := C7_even_division_and_input_order (envWith (some 10) [okClip, okClip])
    10 (by decide) rfl rfl
  exact ⟨h.1 (by decide), h.2 (by decide)⟩

/-! ### C8 -/

/-- Claim C8 counterexample: the downloads are not streamed in fixed-size
chunks — no constant bounds the bytes buffered in memory at once, since
the whole body is materialized for every payload. -/
theorem C8_counterexample : ¬ fetchBufferBounded := by
  rintro ⟨c, h⟩
  have hb := h (List.replicate (c + 1) 0)
  simp [fetchToDisk, requestsGetContent] at hb

/-- Claim C8 (amended): every download (clip and audio alike) buffers the
entire response body in memory at once (`r.content`) and writes it to
disk in a single write call: the peak buffered size equals the payload
size for every body. -/
theorem C8_whole_body_buffered (body : List Nat) :
    (fetchToDisk body).bufferedBytes = body.length ∧
    (fetchToDisk body).writes = [body] := by
  exact ⟨rfl, rfl⟩

end VideoAssembler
